import Mathlib

/- Shallow embedding of gh-migrate-packages: data model, per-type package
validation, name mapping, paginated catalog fetch, rate-limit gating,
retry loops, the concurrent per-package worker, and container layer upload. -/

/-- A single apostrophe character, used when Go format strings quote names. -/
def squote : String := String.singleton (Char.ofNat 39)

/-- Go strings.Contains with a one-character needle, over characters. -/
def strContainsChar (s : String) (c : Char) : Bool := s.toList.contains c

/-- Go strings.HasPrefix, over characters. -/
def strHasPrefix (s pre : String) : Bool := pre.toList.isPrefixOf s.toList

/-- Go strings.HasSuffix, over characters. -/
def strHasSuffix (s suf : String) : Bool := suf.toList.isSuffixOf s.toList

/-- Go strings.ContainsAny: does s hold any character of chars. -/
def strContainsAny (s chars : String) : Bool :=
  s.toList.any (fun c => chars.toList.contains c)

/-- Go strings.ToLower (ASCII case mapping suffices for the names here). -/
def strToLower (s : String) : String := String.mk (s.toList.map Char.toLower)

/-- Go strings.Split with a one-character separator. -/
def splitOnChar (c : Char) : List Char → List (List Char)
  | [] => [[]]
  | x :: xs =>
    if x = c then [] :: splitOnChar c xs
    else
      match splitOnChar c xs with
      | h :: t => (x :: h) :: t
      | [] => [[x]]

/-- Mirrors the File struct of pkg/package/package.go. -/
structure GFile where
  name : String
  size : Int
  sha256 : String
  url : String
deriving DecidableEq

/-- Mirrors the Version struct of pkg/package/package.go; metadata is an
plain association list. -/
structure GVersion where
  id : String
  name : String
  metadata : List (String × String)
  files : List GFile
  createdAt : String
  updatedAt : String
deriving DecidableEq

/-- Mirrors the Package struct of pkg/package/package.go (repository and
statistics pointers omitted; no claim inspects them). -/
structure GPackage where
  id : String
  name : String
  packageType : String
  visibility : String
  versions : List GVersion
deriving DecidableEq

/-- Mirrors ValidationError of pkg/package/package.go. -/
structure ValidationError where
  packageName : String
  packageType : String
  message : String
deriving DecidableEq

/-- Mirrors the Error method of ValidationError: the Go format string is
"validation error for %s package %s: %s" with the name single-quoted. -/
def ValidationError.errorString (e : ValidationError) : String :=
  "validation error for " ++ e.packageType ++ " package " ++ squote ++
    e.packageName ++ squote ++ ": " ++ e.message

/-- Mirrors the PackageValidator interface of pkg/package/package.go;
a none result models a nil error. -/
structure PackageValidator where
  validatePackage : GPackage → Option ValidationError
  validateVersion : GVersion → Option ValidationError
  getMaxFileSize : Int
  getRequiredFiles : List String

/-- The npm package-level message; the at-sign is quoted in the Go source. -/
def npmScopedMsg : String :=
  "npm package name must start with " ++ squote ++ "@" ++ squote ++
    " for scoped packages"

/-- Mirrors ContainerValidator of pkg/package/package.go. -/
def ContainerValidator : PackageValidator where
  validatePackage p :=
    if strContainsChar p.name (Char.ofNat 58) then
      some (ValidationError.mk p.name ("container")
        ("container name cannot contain " ++ squote ++ ":" ++ squote ++ " character"))
    else none
  validateVersion v :=
    match v.files.find? (fun f => f.size > 10 * 1024 * 1024 * 1024) with
    | some f => some (ValidationError.mk ("") ("container")
        ("file " ++ f.name ++ " exceeds 10GB layer limit"))
    | none => none
  getMaxFileSize := 10 * 1024 * 1024 * 1024
  getRequiredFiles := [("manifest.json"), ("config.json")]

/-- Mirrors NpmValidator of pkg/package/package.go. -/
def NpmValidator : PackageValidator where
  validatePackage p :=
    if strHasPrefix p.name ("@") then none
    else some (ValidationError.mk p.name ("npm") npmScopedMsg)
  validateVersion v :=
    if v.files.any (fun f => f.name = "package.json") then none
    else some (ValidationError.mk ("") ("npm") ("missing required package.json file"))
  getMaxFileSize := 256 * 1024 * 1024
  getRequiredFiles := [("package.json")]

/-- Mirrors MavenValidator of pkg/package/package.go. -/
def MavenValidator : PackageValidator where
  validatePackage p :=
    if (splitOnChar (Char.ofNat 58) p.name.toList).length = 2 then none
    else some (ValidationError.mk p.name ("maven")
      ("maven package name must be in format " ++ squote ++ "groupId:artifactId" ++ squote))
  validateVersion v :=
    if v.files.any (fun f => f.name = "pom.xml") then none
    else some (ValidationError.mk ("") ("maven") ("missing required pom.xml file"))
  getMaxFileSize := 1024 * 1024 * 1024
  getRequiredFiles := [("pom.xml")]

/-- The character set rejected by the NuGet package-level rule. -/
def nugetInvalidChars : String :=
  "!@#$%^&*()+=[]" ++ "\x7b\x7d" ++ "|\\:;\"" ++ squote ++ "<>?,/"

/-- The character set rejected by the RubyGems package-level rule:
a space followed by the NuGet set. -/
def rubyInvalidChars : String := " " ++ nugetInvalidChars

/-- Mirrors NuGetValidator of pkg/package/package.go. -/
def NuGetValidator : PackageValidator where
  validatePackage p :=
    if strContainsAny p.name nugetInvalidChars then
      some (ValidationError.mk p.name ("nuget")
        ("invalid package name: must follow .NET namespace conventions"))
    else none
  validateVersion v :=
    if !v.files.any (fun f => strHasSuffix f.name (".nupkg")) then
      some (ValidationError.mk ("") ("nuget") ("missing required .nupkg file"))
    else if !v.files.any (fun f => strHasSuffix f.name (".nuspec")) then
      some (ValidationError.mk ("") ("nuget") ("missing required .nuspec file"))
    else none
  getMaxFileSize := 250 * 1024 * 1024
  getRequiredFiles := [(".nupkg"), (".nuspec")]

/-- Mirrors RubyGemsValidator of pkg/package/package.go. -/
def RubyGemsValidator : PackageValidator where
  validatePackage p :=
    if strContainsAny p.name rubyInvalidChars then
      some (ValidationError.mk p.name ("rubygems")
        ("invalid package name: can only contain alphanumeric characters, dashes, and underscores"))
    else if strToLower p.name ≠ p.name then
      some (ValidationError.mk p.name ("rubygems") ("package name must be lowercase"))
    else none
  validateVersion v :=
    if !v.files.any (fun f => strHasSuffix f.name (".gem")) then
      some (ValidationError.mk ("") ("rubygems") ("missing required .gem file"))
    else if !v.files.any (fun f => strHasSuffix f.name (".gemspec")) then
      some (ValidationError.mk ("") ("rubygems") ("missing required .gemspec file"))
    else
      match v.files.find? (fun f =>
          strHasSuffix f.name ("metadata.gz") && f.size > 2 * 1024 * 1024) with
      | some _ => some (ValidationError.mk ("") ("rubygems")
          ("metadata.gz file must be less than 2MB"))
      | none => none
  getMaxFileSize := 512 * 1024 * 1024
  getRequiredFiles := [(".gem"), (".gemspec")]

/-- Mirrors GetValidator of pkg/package/package.go. -/
def GetValidator (pkgType : String) : Except String PackageValidator :=
  if pkgType = "container" then Except.ok ContainerValidator
  else if pkgType = "npm" then Except.ok NpmValidator
  else if pkgType = "maven" then Except.ok MavenValidator
  else if pkgType = "nuget" then Except.ok NuGetValidator
  else if pkgType = "rubygems" then Except.ok RubyGemsValidator
  else Except.error ("unsupported package type: " ++ pkgType)

/-- The error value returned by the free ValidatePackage function. -/
inductive PkgError where
  | validation (e : ValidationError)
  | unsupportedType (msg : String)
deriving DecidableEq

/-- The string produced by the Error method of the returned error. -/
def PkgError.message : PkgError → String
  | PkgError.validation e => e.errorString
  | PkgError.unsupportedType msg => msg

/-- The per-version loop inside the free ValidatePackage function:
the first version-level validation error, in version order. -/
def firstVersionError (v : PackageValidator) : List GVersion → Option ValidationError
  | [] => none
  | ver :: rest =>
    match v.validateVersion ver with
    | some e => some e
    | none => firstVersionError v rest

/-- Mirrors the free ValidatePackage helper of pkg/package/package.go:
resolve the validator, check the package-level rule, then every
version-level rule, returning the first error. -/
def ValidatePackage (p : GPackage) : Option PkgError :=
  match GetValidator p.packageType with
  | Except.error msg => some (PkgError.unsupportedType msg)
  | Except.ok v =>
    match v.validatePackage p with
    | some e => some (PkgError.validation e)
    | none =>
      match firstVersionError v p.versions with
      | some e => some (PkgError.validation e)
      | none => none

/- ===== Name mapping (pkg/sync, LoadMappings and getTargetPackageName) ===== -/

/-- Insertion into a Go map modelled as an association list with unique
keys: an existing binding for the key is replaced in place. -/
def mapInsert (m : List (String × String)) (k v : String) : List (String × String) :=
  match m with
  | [] => [(k, v)]
  | (k0, v0) :: rest => if k0 = k then (k, v) :: rest else (k0, v0) :: mapInsert rest k v

/-- Lookup in a Go map modelled as an association list with unique keys. -/
def mapLookup : List (String × String) → String → Option String
  | [], _ => none
  | (k0, v0) :: rest, k => if k0 = k then some v0 else mapLookup rest k

/-- Mirrors getTargetPackageName of pkg/sync: return the mapped name when
present in the mappings table, else the source name unchanged. -/
def getTargetPackageName (mappings : List (String × String)) (sourceName : String) : String :=
  match mapLookup mappings sourceName with
  | some targetName => targetName
  | none => sourceName

/-- One row of the LoadMappings loop: a row with at least two columns
inserts column 0 as key and column 1 as value; shorter rows are skipped. -/
def mappingStep (m : List (String × String)) (row : List String) : List (String × String) :=
  match row with
  | a :: b :: _ => mapInsert m a b
  | _ => m

/-- The mapping-table construction loop of LoadMappings over the rows
after the header. -/
def buildMappings (rows : List (List String)) : List (String × String) :=
  rows.foldl mappingStep []

/-- Outcome of a Go function that can also panic at runtime. -/
inductive GoOutcome (α : Type) where
  | ok (a : α)
  | err (msg : String)
  | panicked (msg : String)
deriving DecidableEq

/-- The record-processing step of LoadMappings: Go slices records with
index 1, which panics when the parsed CSV has zero records, and otherwise
iterates the rows after the header. -/
def loadMappingsFromRecords (records : List (List String)) : GoOutcome (List (String × String)) :=
  match records with
  | [] => GoOutcome.panicked ("runtime error: slice bounds out of range")
  | _ :: rest => GoOutcome.ok (buildMappings rest)

/-- Mirrors LoadMappings of pkg/sync with file I/O made explicit: an empty
path is a no-op, a failed open/read becomes an error, and parsed CSV
records are folded into the mapping table. -/
def LoadMappings (mappingFile : String)
    (readResult : Except String (List (List String))) : GoOutcome (List (String × String)) :=
  if mappingFile = "" then GoOutcome.ok []
  else
    match readResult with
    | Except.error e => GoOutcome.err ("failed to read mapping file: " ++ e)
    | Except.ok records => loadMappingsFromRecords records

/- ===== Paginated catalog fetch (pkg/api, GetOrganizationPackages) ===== -/

/-- A file node of one GraphQL response page. -/
structure FileNode where
  name : String
  size : Int
  sha256 : String
  url : String
deriving DecidableEq

/-- A version node of one GraphQL response page. -/
structure VersionNode where
  id : String
  version : String
  files : List FileNode
  createdAt : String
  updatedAt : String
deriving DecidableEq

/-- A package node of one GraphQL response page. -/
structure PackageNode where
  id : String
  name : String
  packageType : String
  repoName : String
  repoURL : String
  downloadsTotalCount : Int
  versions : List VersionNode
deriving DecidableEq

/-- One GraphQL response page: page info plus package nodes. -/
structure Page where
  endCursor : String
  hasNextPage : Bool
  nodes : List PackageNode
deriving DecidableEq

/-- The api.Package value built by GetOrganizationPackages from a node
(repository and statistics flattened into fields). -/
structure ApiPackage where
  id : String
  name : String
  packageType : String
  repoName : String
  repoURL : String
  downloadsCount : Int
  versions : List GVersion
deriving DecidableEq

/-- The per-file conversion inside GetOrganizationPackages. -/
def convertFileNode (f : FileNode) : GFile :=
  GFile.mk f.name f.size f.sha256 f.url

/-- The per-version conversion inside GetOrganizationPackages. -/
def convertVersionNode (v : VersionNode) : GVersion :=
  GVersion.mk v.id v.version [] (v.files.map convertFileNode) v.createdAt v.updatedAt

/-- The per-node conversion inside GetOrganizationPackages. -/
def convertNode (n : PackageNode) : ApiPackage :=
  ApiPackage.mk n.id n.name n.packageType n.repoName n.repoURL
    n.downloadsTotalCount (n.versions.map convertVersionNode)

/-- The pagination loop of GetOrganizationPackages over an explicit list
of successive query results: a query error aborts with the wrapped error
and discards the accumulator; otherwise nodes are appended and the loop
continues while hasNextPage holds. A none result means the response list
ran out while another page was still requested. -/
def fetchPagesLoop : List (Except String Page) → List ApiPackage → Option (Except String (List ApiPackage))
  | [], _ => none
  | resp :: rest, acc =>
    match resp with
    | Except.error e => some (Except.error ("failed to query packages: " ++ e))
    | Except.ok page =>
      if page.hasNextPage then fetchPagesLoop rest (acc ++ page.nodes.map convertNode)
      else some (Except.ok (acc ++ page.nodes.map convertNode))

/-- Mirrors GetOrganizationPackages of pkg/api/api.go, with the sequence
of GraphQL responses passed explicitly. -/
def GetOrganizationPackages (resps : List (Except String Page)) : Option (Except String (List ApiPackage)) :=
  fetchPagesLoop resps []

/- ===== Rate-limit gating (RateLimitAwareGraphQLClient.Query) ===== -/

/-- Observable events of one RateLimitAwareGraphQLClient.Query call. -/
inductive QEvent where
  | probe (remaining : Int) (resetAt : Int)
  | sleepUntil (resetAt : Int)
  | pageQuery
deriving DecidableEq

/-- The wait loop of RateLimitAwareGraphQLClient.Query over an explicit
list of successive rate-limit probe results: a probe error returns it; a
positive remaining quota issues the page query at once; otherwise the
client sleeps until the declared reset time and probes again. A none
result means the probe list ran out while the loop was still waiting. -/
def rlQueryLoop (pageRes : Except String Unit) :
    List (Except String (Int × Int)) → List QEvent × Option (Except String Unit)
  | [] => ([], none)
  | probeRes :: rest =>
    match probeRes with
    | Except.error e => ([], some (Except.error e))
    | Except.ok (rem, reset) =>
      if rem > 0 then ([QEvent.probe rem reset, QEvent.pageQuery], some pageRes)
      else
        let next := rlQueryLoop pageRes rest
        (QEvent.probe rem reset :: QEvent.sleepUntil reset :: next.1, next.2)

/- ===== Retry loop (pkg/api/upload.go, retryableUpload) ===== -/

/-- Mirrors the UploadManager configuration of pkg/api/upload.go; the
retry delay is kept in seconds. -/
structure UploadManager where
  maxRetries : Nat
  retryDelaySec : Nat
  concurrency : Nat
deriving DecidableEq

/-- Mirrors NewUploadManager: 3 retries, 5 second base delay, concurrency 5. -/
def NewUploadManager : UploadManager := UploadManager.mk 3 5 5

/-- Observable events of one retryableUpload call. -/
inductive RetryEvent where
  | attempt (i : Nat) (ok : Bool)
  | wait (delaySec : Nat)
deriving DecidableEq

/-- The attempt loop of retryableUpload: attempt i runs fn; success
returns nil at once; failure records the error, waits
retryDelay * (attempt + 1), and continues; exhaustion surfaces the last
recorded error (none models a nil lastErr). -/
def retryLoopGo (retryDelay : Nat) (res : Nat → Except String Unit) :
    Nat → Nat → Option String → List RetryEvent × Except (Option String) Unit
  | _, 0, lastErr => ([], Except.error lastErr)
  | i, r + 1, _ =>
    match res i with
    | Except.ok _ => ([RetryEvent.attempt i true], Except.ok ())
    | Except.error e =>
      let next := retryLoopGo retryDelay res (i + 1) r (some e)
      (RetryEvent.attempt i false :: RetryEvent.wait (retryDelay * (i + 1)) :: next.1, next.2)

/-- Mirrors retryableUpload of pkg/api/upload.go over an explicit sequence
of per-attempt results, with the Go error format
"upload failed after %d attempts: %v" on exhaustion. -/
def retryableUpload (m : UploadManager) (res : Nat → Except String Unit) :
    List RetryEvent × Except String Unit :=
  match retryLoopGo m.retryDelaySec res 0 m.maxRetries none with
  | (evs, Except.ok _) => (evs, Except.ok ())
  | (evs, Except.error lastErr) =>
    (evs, Except.error ("upload failed after " ++ toString m.maxRetries ++
      " attempts: " ++ lastErr.getD ("<nil>")))

/- ===== Concurrent per-package worker (pkg/sync, processConcurrently) ===== -/

/-- Mirrors the ValidationReport struct of pkg/sync (TotalSize is never
assigned by the code and is omitted). -/
structure ValidationReport where
  packageName : String
  packageType : String
  status : String
  errorMessage : String
  versionsCount : Nat
deriving DecidableEq

/-- The network environment of one version goroutine: the result of the
i-th download attempt and the result of the single upload call. -/
structure VersionEnv where
  downloadResults : Nat → Except String Unit
  uploadResult : Except String Unit

/-- The download retry loop of the version goroutine in
processConcurrently: up to maxRetries attempts, sleeping after each
failure, leaving the last error (or the initial nil, modelled ok) when
the counter is exhausted. -/
def downloadRetryLoop (res : Nat → Except String Unit) :
    Except String Unit → Nat → Nat → Except String Unit
  | cur, _, 0 => cur
  | _, i, r + 1 =>
    match res i with
    | Except.ok u => Except.ok u
    | Except.error e => downloadRetryLoop res (Except.error e) (i + 1) r

/-- The body of one version goroutine in processConcurrently: download
with retry, then upload; the collected error (sent on versionErrors) or
none on success. -/
def transferVersion (maxRetries : Nat) (vname : String) (env : VersionEnv) : Option String :=
  match downloadRetryLoop env.downloadResults (Except.ok ()) 0 maxRetries with
  | Except.error e => some ("failed to download version " ++ vname ++ ": " ++ e)
  | Except.ok _ =>
    match env.uploadResult with
    | Except.error e => some ("failed to upload version " ++ vname ++ ": " ++ e)
    | Except.ok _ => none

/-- Observable events of one package worker goroutine: a completed
version transfer attempt (with its collected error, if any), or the send
of the single ValidationReport on the results channel. -/
inductive WorkerEvent where
  | versionAttemptDone (vname : String) (err : Option String)
  | sendReport (r : ValidationReport)
deriving DecidableEq

/-- The errors collected from the versionErrors channel for one package,
in version order (the channel order is a linearization of it). -/
def versionTransferErrors (maxRetries : Nat) (p : GPackage) (envs : List VersionEnv) : List String :=
  ((p.versions.zip envs).map (fun ve => transferVersion maxRetries ve.1.name ve.2)).filterMap id

/-- The per-package worker goroutine of processConcurrently: build the
report skeleton; on validation failure send a Failed report at once; else
fan out the versions, join them, and send Partial Success when any
version collected an error, Success otherwise. Returns the event trace
(version joins linearized in version order, the WaitGroup join placing
the send after all of them) together with the report sent. -/
def processPackageWorker (maxRetries : Nat) (p : GPackage) (envs : List VersionEnv) :
    List WorkerEvent × ValidationReport :=
  match ValidatePackage p with
  | some err =>
    let r := ValidationReport.mk p.name p.packageType ("Failed") err.message p.versions.length
    ([WorkerEvent.sendReport r], r)
  | none =>
    let results := (p.versions.zip envs).map
      (fun ve => (ve.1.name, transferVersion maxRetries ve.1.name ve.2))
    let errMsgs := versionTransferErrors maxRetries p envs
    let r :=
      if errMsgs.length > 0 then
        ValidationReport.mk p.name p.packageType ("Partial Success")
          (String.intercalate ("; ") errMsgs) p.versions.length
      else
        ValidationReport.mk p.name p.packageType ("Success") ("") p.versions.length
    (results.map (fun x => WorkerEvent.versionAttemptDone x.1 x.2) ++ [WorkerEvent.sendReport r], r)

/-- Whether a worker event is the report send. -/
def isSendReport : WorkerEvent → Bool
  | WorkerEvent.sendReport _ => true
  | _ => false

/- ===== Container layer upload (pkg/api, uploadContainerLayer) ===== -/

/-- A local file handed to the upload strategies: its path and content. -/
structure MFile where
  path : String
  content : String
deriving DecidableEq

/-- Mirrors the UploadOptions fields used by the container path. -/
structure UploadOptions where
  organization : String
  packageName : String
  version : String
  files : List MFile
  metadata : List (String × String)
deriving DecidableEq

/-- The backward scan of Go filepath.Ext over reversed characters: stop
at a path separator with no extension, or return from the last dot. -/
def goExtRev (acc : List Char) : List Char → String
  | [] => ""
  | c :: rest =>
    if c = (Char.ofNat 47) then ""
    else if c = (Char.ofNat 46) then String.mk (c :: acc)
    else goExtRev (c :: acc) rest

/-- Mirrors Go filepath.Ext: the suffix from the final dot of the last
path element, or the empty string. -/
def fileExt (path : String) : String := goExtRev [] path.toList.reverse

/-- Mirrors isContainerLayer of pkg/api/upload.go. -/
def isContainerLayer (f : MFile) : Bool :=
  fileExt f.path = ".tar" || fileExt f.path = ".gz" || fileExt f.path = ".tgz"

/-- The content digest computed by uploadContainerLayer; SHA-256 is
modelled as an injective content-addressed tag. -/
def digestOf (content : String) : String := "sha256:" ++ content

/-- Observable registry interactions of uploadContainerLayer. -/
inductive LayerEvent where
  | probeExists (digest : String) (present : Bool)
  | uploadBlob (digest : String)
deriving DecidableEq

/-- Mirrors uploadContainerLayer of the container upload file on its
success path, with the target registry state made explicit as the list of
blob digests present: hash the content, probe existence of the digest,
skip the byte upload when present and still return the digest, otherwise
upload the blob (which adds the digest to the registry). -/
def uploadContainerLayer (blobs : List String) (f : MFile) :
    String × List String × List LayerEvent :=
  let digest := digestOf f.content
  if digest ∈ blobs then
    (digest, blobs, [LayerEvent.probeExists digest true])
  else
    (digest, digest :: blobs,
      [LayerEvent.probeExists digest false, LayerEvent.uploadBlob digest])

/-- Mirrors validateContainerUpload of pkg/api/upload.go. -/
def validateContainerUpload (opts : UploadOptions) : Option String :=
  if opts.organization = "" then some ("organization is required")
  else if opts.packageName = "" then some ("package name is required")
  else if opts.version = "" then some ("version is required")
  else none

/-- Observable events of one ContainerUpload call. -/
inductive CUEvent where
  | layer (e : LayerEvent)
  | manifestUpload (url : String)
deriving DecidableEq

/-- The layer fan-out of ContainerUpload linearized in file order:
thread the registry state through uploadContainerLayer for every layer
file, collecting digests and events. -/
def uploadLayers (blobs : List String) : List MFile → List String × List String × List CUEvent
  | [] => (blobs, [], [])
  | f :: rest =>
    let step := uploadContainerLayer blobs f
    let next := uploadLayers step.2.1 rest
    (next.1, step.1 :: next.2.1, step.2.2.map CUEvent.layer ++ next.2.2)

/-- Mirrors ContainerUpload of pkg/api/upload.go on its success path:
validate the options, upload every layer file (dedup by digest), then
upload the manifest referencing the collected digests. Returns the new
registry state, the event trace, and the result. -/
def ContainerUpload (blobs : List String) (opts : UploadOptions) :
    List String × List CUEvent × Except String Unit :=
  match validateContainerUpload opts with
  | some e => (blobs, [], Except.error ("container validation failed: " ++ e))
  | none =>
    let layerFiles := opts.files.filter isContainerLayer
    let up := uploadLayers blobs layerFiles
    let manifestURL := opts.organization ++ "/" ++ opts.packageName ++
      "/manifests/" ++ opts.version
    (up.1, up.2.2 ++ [CUEvent.manifestUpload manifestURL], Except.ok ())

/-- Count of blob uploads of one digest in a ContainerUpload trace. -/
def countBlobUploads (digest : String) (evs : List CUEvent) : Nat :=
  (evs.filter (fun e => e = CUEvent.layer (LayerEvent.uploadBlob digest))).length

/-- Count of manifest uploads in a ContainerUpload trace. -/
def countManifestUploads (evs : List CUEvent) : Nat :=
  (evs.filter (fun e => match e with
    | CUEvent.manifestUpload _ => true
    | _ => false)).length

/- ===== Concrete fixtures for witnesses and counterexamples ===== -/

/-- A package.json file entry for versions passing the npm version rule. -/
def npmJsonFile : GFile := GFile.mk ("package.json") 10 ("h0") ("u0")

/-- A version holding a package.json file. -/
def okNpmVersion : GVersion := GVersion.mk ("v1") ("1.0.0") [] [npmJsonFile] ("t0") ("t1")

/-- A version with no files at all. -/
def emptyVersion : GVersion := GVersion.mk ("v2") ("2.0.0") [] [] ("t0") ("t1")

/-- A scoped npm package whose single version passes validation. -/
def scopedNpmPkg : GPackage := GPackage.mk ("id1") ("@scope/a") ("npm") ("private") [okNpmVersion]

/-- A scoped npm package whose single version lacks package.json. -/
def scopedNpmPkgBadVersion : GPackage := GPackage.mk ("id2") ("@scope/b") ("npm") ("private") [emptyVersion]

/-- An unscoped npm package named lodash. -/
def lodashPkg : GPackage := GPackage.mk ("id7") ("lodash") ("npm") ("private") [okNpmVersion]

/-- A scoped npm package with no versions. -/
def noVersionsPkg : GPackage := GPackage.mk ("id8") ("@w/a") ("npm") ("private") []

/-- A version environment whose downloads always fail. -/
def envAllFail : VersionEnv := VersionEnv.mk (fun _ => Except.error ("network down")) (Except.ok ())

/-- A version environment where everything succeeds. -/
def envAllOk : VersionEnv := VersionEnv.mk (fun _ => Except.ok ()) (Except.ok ())

/-- An example mapping table with one binding. -/
def exampleMappings : List (String × String) := [("pkgA", "pkgA2")]

/-- The expected retryableUpload trace when every attempt fails, from
attempt index i for r further attempts: each failed attempt is followed
by a wait of delay * (attempt + 1). -/
def failTrace (delay : Nat) : Nat → Nat → List RetryEvent
  | _, 0 => []
  | i, r + 1 =>
    RetryEvent.attempt i false :: RetryEvent.wait (delay * (i + 1)) :: failTrace delay (i + 1) r

/-- Count of attempt events in a retryableUpload trace. -/
def countAttempts (evs : List RetryEvent) : Nat :=
  (evs.filter (fun e => match e with
    | RetryEvent.attempt _ _ => true
    | _ => false)).length

/-- A probe sequence for the rate-limit witness: first exhausted with
reset at 5, then one unit of quota with reset at 9. -/
def c5probes : List (Except String (Int × Int)) :=
  [Except.ok ((0 : Int), (5 : Int)), Except.ok ((1 : Int), (9 : Int))]

/-- Container upload options for one version whose single file is a
gzipped layer with the given content. -/
def containerOpts (version content : String) : UploadOptions :=
  UploadOptions.mk ("org") ("app") version [MFile.mk ("layer.tar.gz") content] []

/- ===== Claim theorems ===== -/

/-- C8: getTargetPackageName is a total deterministic function of the
mapping table: it returns the mapped target name when the source name is
a key of the table, and the input name unchanged otherwise (in
particular over the empty table left by loading no mapping file). -/
theorem c8_name_resolution_total (m : List (String × String)) (name : String) :
    (∀ t, mapLookup m name = some t → getTargetPackageName m name = t) ∧
    (mapLookup m name = none → getTargetPackageName m name = name) := by
  constructor
  · intro t h
    unfold getTargetPackageName
    rw [h]
  · intro h
    unfold getTargetPackageName
    rw [h]

/-- Witness for C8 at the mapped key pkgA and at an absent key. -/
theorem c8_name_resolution_total_witness :
    getTargetPackageName exampleMappings ("pkgA") = "pkgA2" ∧
    getTargetPackageName exampleMappings ("pkgB") = "pkgB" :=
  ⟨(c8_name_resolution_total exampleMappings ("pkgA")).1 ("pkgA2") rfl,
   (c8_name_resolution_total exampleMappings ("pkgB")).2 rfl⟩

/-- C10: LoadMappings on a non-empty path whose CSV parses to zero
records does not return an error value but panics on the header-skipping
slice; with at least a header row present, rows with fewer than two
columns are silently skipped. -/
theorem c10_loadmappings_panic_and_skip :
    (∀ f : String, f ≠ "" →
      LoadMappings f (Except.ok []) =
        GoOutcome.panicked ("runtime error: slice bounds out of range")) ∧
    (∀ (f : String) (header : List String) (rows : List (List String)), f ≠ "" →
      LoadMappings f (Except.ok (header :: rows)) = GoOutcome.ok (buildMappings rows)) ∧
    (∀ (pre post : List (List String)) (short : List String), short.length < 2 →
      buildMappings (pre ++ short :: post) = buildMappings (pre ++ post)) := by
  refine ⟨?_, ?_, ?_⟩
  · intro f hf
    unfold LoadMappings
    rw [if_neg hf]
    rfl
  · intro f header rows hf
    unfold LoadMappings
    rw [if_neg hf]
    rfl
  · intro pre post short hshort
    have hstep : ∀ m : List (String × String), mappingStep m short = m := by
      intro m
      match short, hshort with
      | [], _ => rfl
      | [a], _ => rfl
    unfold buildMappings
    rw [List.foldl_append, List.foldl_append, List.foldl_cons, hstep]

/-- Witness for C10 at a concrete file name, empty record list, and a
one-column row. -/
theorem c10_loadmappings_panic_and_skip_witness :
    LoadMappings ("mappings.csv") (Except.ok []) =
      GoOutcome.panicked ("runtime error: slice bounds out of range") ∧
    buildMappings ([[("a"), ("b")]] ++ [("only")] :: []) =
      buildMappings ([[("a"), ("b")]] ++ []) :=
  ⟨c10_loadmappings_panic_and_skip.1 ("mappings.csv") (by decide),
   c10_loadmappings_panic_and_skip.2.2 ([[("a"), ("b")]]) ([]) ([("only")]) (by decide)⟩

/-- C1 counterexample: a validated npm package whose only version fails
its transfer — every version failed, yet processConcurrently reports
Partial Success, not Failed as the claim states. -/
theorem c1_all_versions_failed_counterexample :
    (versionTransferErrors 3 scopedNpmPkg [envAllFail]).length = scopedNpmPkg.versions.length ∧
    scopedNpmPkg.versions.length = 1 ∧
    (processPackageWorker 3 scopedNpmPkg [envAllFail]).2.status = "Partial Success" ∧
    (processPackageWorker 3 scopedNpmPkg [envAllFail]).2.status ≠ "Failed" := by
  refine ⟨by decide, by decide, by decide, by decide⟩

/-- C1 amended: the emitted report is Failed exactly when validation
failed; Success when validation passed and no version attempt collected
an error; Partial Success when validation passed and at least one
version attempt collected an error, even when every version failed. -/
theorem c1_status_classification (maxRetries : Nat) (p : GPackage) (envs : List VersionEnv) :
    (∀ e, ValidatePackage p = some e →
      (processPackageWorker maxRetries p envs).2.status = "Failed") ∧
    (ValidatePackage p = none →
      (versionTransferErrors maxRetries p envs = [] →
        (processPackageWorker maxRetries p envs).2.status = "Success") ∧
      (versionTransferErrors maxRetries p envs ≠ [] →
        (processPackageWorker maxRetries p envs).2.status = "Partial Success")) := by
  constructor
  · intro e he
    simp [processPackageWorker, he]
  · intro hv
    constructor
    · intro h
      simp [processPackageWorker, hv, h]
    · intro h
      have hl : 0 < (versionTransferErrors maxRetries p envs).length :=
        List.length_pos.mpr h
      simp [processPackageWorker, hv, hl]

/-- Witness for C1 exercising all three classification branches. -/
theorem c1_status_classification_witness :
    (processPackageWorker 3 noVersionsPkg []).2.status = "Success" ∧
    (processPackageWorker 3 scopedNpmPkg [envAllFail]).2.status = "Partial Success" ∧
    (processPackageWorker 3 lodashPkg []).2.status = "Failed" :=
  ⟨((c1_status_classification 3 noVersionsPkg []).2 rfl).1 rfl,
   ((c1_status_classification 3 scopedNpmPkg [envAllFail]).2 rfl).2 (by decide),
   (c1_status_classification 3 lodashPkg []).1
     (PkgError.validation (ValidationError.mk ("lodash") ("npm") npmScopedMsg)) rfl⟩

/-- The per-version scan of ValidatePackage finds no error exactly when
every version passes its version-level rule. -/
theorem firstVersionError_eq_none_iff (v : PackageValidator) (l : List GVersion) :
    firstVersionError v l = none ↔ ∀ ver ∈ l, v.validateVersion ver = none := by
  induction l with
  | nil => simp [firstVersionError]
  | cons ver rest ih =>
    cases h : v.validateVersion ver with
    | some e => simp [firstVersionError, h]
    | none => simp [firstVersionError, h, ih]

/-- C2 counterexample: a scoped npm package whose only version lacks
package.json — the pre-check of the concurrent path does detect the
version-level violation, the package is reported Failed, and no version
transfer is attempted, contrary to the claim. -/
theorem c2_precheck_detects_version_rule_counterexample :
    ValidatePackage scopedNpmPkgBadVersion =
      some (PkgError.validation
        (ValidationError.mk ("") ("npm") ("missing required package.json file"))) ∧
    NpmValidator.validatePackage scopedNpmPkgBadVersion = none ∧
    (processPackageWorker 3 scopedNpmPkgBadVersion [envAllOk]).1 =
      [WorkerEvent.sendReport (processPackageWorker 3 scopedNpmPkgBadVersion [envAllOk]).2] ∧
    (processPackageWorker 3 scopedNpmPkgBadVersion [envAllOk]).2.status = "Failed" :=
  ⟨rfl, rfl, rfl, rfl⟩

/-- C2 amended: the validation run by processConcurrently before fanning
out per-version transfers checks the package-level rule and every
version-level rule: it succeeds exactly when the package-level rule and
all version-level rules pass, so version-level violations are already
detected in this pre-check (and fail the whole package). -/
theorem c2_precheck_checks_both_levels (p : GPackage) (v : PackageValidator)
    (h : GetValidator p.packageType = Except.ok v) :
    ValidatePackage p = none ↔
      (v.validatePackage p = none ∧ ∀ ver ∈ p.versions, v.validateVersion ver = none) := by
  unfold ValidatePackage
  rw [h]
  cases hp : v.validatePackage p with
  | some e => simp [hp]
  | none =>
    cases hf : firstVersionError v p.versions with
    | some e =>
      have := (firstVersionError_eq_none_iff v p.versions).not
      simp [hf] at this
      simp [hp, hf]
      exact this
    | none =>
      have := (firstVersionError_eq_none_iff v p.versions).mp hf
      simp [hp, hf]
      exact this

/-- Witness for C2 at a scoped npm package with one valid version. -/
theorem c2_precheck_checks_both_levels_witness :
    ValidatePackage scopedNpmPkg = none ↔
      (NpmValidator.validatePackage scopedNpmPkg = none ∧
       ∀ ver ∈ scopedNpmPkg.versions, NpmValidator.validateVersion ver = none) :=
  c2_precheck_checks_both_levels scopedNpmPkg NpmValidator rfl

/-- C7: for any npm package whose name does not start with an at-sign,
validation returns the npm-specific ValidationError, the concurrent
worker reports Failed carrying the formatted validation message, and the
trace holds the report send alone — no version transfer is attempted. -/
theorem c7_unscoped_npm_fails_no_transfer (maxRetries : Nat) (p : GPackage)
    (envs : List VersionEnv) (h1 : p.packageType = "npm")
    (h2 : strHasPrefix p.name ("@") = false) :
    ValidatePackage p =
      some (PkgError.validation (ValidationError.mk p.name ("npm") npmScopedMsg)) ∧
    (processPackageWorker maxRetries p envs).1 =
      [WorkerEvent.sendReport (processPackageWorker maxRetries p envs).2] ∧
    (processPackageWorker maxRetries p envs).2.status = "Failed" ∧
    (processPackageWorker maxRetries p envs).2.errorMessage =
      ValidationError.errorString (ValidationError.mk p.name ("npm") npmScopedMsg) := by
  have hv : ValidatePackage p =
      some (PkgError.validation (ValidationError.mk p.name ("npm") npmScopedMsg)) := by
    unfold ValidatePackage
    rw [h1]
    simp [GetValidator, NpmValidator, h2]
  refine ⟨hv, ?_, ?_, ?_⟩ <;> simp [processPackageWorker, hv, PkgError.message]

/-- Witness for C7 at the npm package named lodash. -/
theorem c7_unscoped_npm_fails_no_transfer_witness :
    ValidatePackage lodashPkg =
      some (PkgError.validation (ValidationError.mk ("lodash") ("npm") npmScopedMsg)) ∧
    (processPackageWorker 3 lodashPkg [envAllOk]).1 =
      [WorkerEvent.sendReport (processPackageWorker 3 lodashPkg [envAllOk]).2] ∧
    (processPackageWorker 3 lodashPkg [envAllOk]).2.status = "Failed" ∧
    (processPackageWorker 3 lodashPkg [envAllOk]).2.errorMessage =
      ValidationError.errorString (ValidationError.mk ("lodash") ("npm") npmScopedMsg) :=
  c7_unscoped_npm_fails_no_transfer 3 lodashPkg [envAllOk] rfl rfl

/-- C3: the worker trace decomposes as version-attempt events followed by
a single report send: exactly one ValidationReport is sent per package,
it is the last event, and when validation succeeded there is one
completed attempt event per version, all preceding the send. -/
theorem c3_one_report_after_all_versions (maxRetries : Nat) (p : GPackage)
    (envs : List VersionEnv) (h : envs.length = p.versions.length) :
    ∃ atts : List WorkerEvent,
      (processPackageWorker maxRetries p envs).1 =
        atts ++ [WorkerEvent.sendReport (processPackageWorker maxRetries p envs).2] ∧
      (∀ e ∈ atts, isSendReport e = false) ∧
      (((processPackageWorker maxRetries p envs).1.filter isSendReport).length = 1) ∧
      (ValidatePackage p = none → atts.length = p.versions.length) := by
  cases hv : ValidatePackage p with
  | some err =>
    refine ⟨[], ?_, ?_, ?_, ?_⟩
    · simp [processPackageWorker, hv]
    · intro e he
      simp at he
    · simp [processPackageWorker, hv, isSendReport]
    · intro hcontra
      exact absurd hcontra (by simp)
  | none =>
    have hnone : ∀ (l : List (String × Option String)),
        (l.map (fun x => WorkerEvent.versionAttemptDone x.1 x.2)).filter isSendReport = [] := by
      intro l
      induction l with
      | nil => rfl
      | cons a t ih => simp [isSendReport, ih]
    have htrace : (processPackageWorker maxRetries p envs).1 =
        ((p.versions.zip envs).map
          (fun ve => (ve.1.name, transferVersion maxRetries ve.1.name ve.2))).map
          (fun x => WorkerEvent.versionAttemptDone x.1 x.2) ++
        [WorkerEvent.sendReport (processPackageWorker maxRetries p envs).2] := by
      simp [processPackageWorker, hv]
    refine ⟨((p.versions.zip envs).map
        (fun ve => (ve.1.name, transferVersion maxRetries ve.1.name ve.2))).map
        (fun x => WorkerEvent.versionAttemptDone x.1 x.2), htrace, ?_, ?_, ?_⟩
    · intro e he
      rcases List.mem_map.mp he with ⟨x, hmem, rfl⟩
      rfl
    · rw [htrace, List.filter_append, hnone]
      simp [isSendReport]
    · intro _
      simp [List.length_zip, h]

/-- Witness for C3 at a one-version npm package. -/
theorem c3_one_report_after_all_versions_witness :
    ∃ atts : List WorkerEvent,
      (processPackageWorker 3 scopedNpmPkg [envAllOk]).1 =
        atts ++ [WorkerEvent.sendReport (processPackageWorker 3 scopedNpmPkg [envAllOk]).2] ∧
      (∀ e ∈ atts, isSendReport e = false) ∧
      (((processPackageWorker 3 scopedNpmPkg [envAllOk]).1.filter isSendReport).length = 1) ∧
      (ValidatePackage scopedNpmPkg = none → atts.length = scopedNpmPkg.versions.length) :=
  c3_one_report_after_all_versions 3 scopedNpmPkg [envAllOk] rfl

/-- Consuming a run of successful pages that all report another page
shifts their converted nodes into the accumulator. -/
theorem fetchPagesLoop_consume_ok (pages : List Page)
    (hok : ∀ p ∈ pages, p.hasNextPage = true) :
    ∀ (rest : List (Except String Page)) (acc : List ApiPackage),
      fetchPagesLoop (pages.map Except.ok ++ rest) acc =
        fetchPagesLoop rest (acc ++ (pages.flatMap Page.nodes).map convertNode) := by
  induction pages with
  | nil =>
    intro rest acc
    simp
  | cons p ps ih =>
    intro rest acc
    have hp : p.hasNextPage = true := hok p (List.mem_cons_self p ps)
    have hps : ∀ q ∈ ps, q.hasNextPage = true := fun q hq => hok q (List.mem_cons_of_mem p hq)
    simp only [List.map_cons, List.cons_append, fetchPagesLoop, hp, if_pos, List.append_eq]
    rw [ih hps rest (acc ++ p.nodes.map convertNode)]
    simp [List.append_assoc]

/-- C4: over any response sequence of hasNextPage pages closed by a final
page with hasNextPage false, GetOrganizationPackages returns exactly the
page-ordered concatenation of all converted nodes; and a page request
error anywhere aborts the fetch with the single wrapped error, dropping
every previously accumulated page. -/
theorem c4_pagination_all_or_nothing :
    (∀ (initPages : List Page) (lastPage : Page),
      (∀ p ∈ initPages, p.hasNextPage = true) → lastPage.hasNextPage = false →
      GetOrganizationPackages ((initPages ++ [lastPage]).map Except.ok) =
        some (Except.ok (((initPages ++ [lastPage]).flatMap Page.nodes).map convertNode))) ∧
    (∀ (okPages : List Page) (e : String) (rest : List (Except String Page)),
      (∀ p ∈ okPages, p.hasNextPage = true) →
      GetOrganizationPackages (okPages.map Except.ok ++ Except.error e :: rest) =
        some (Except.error ("failed to query packages: " ++ e))) := by
  constructor
  · intro initPages lastPage hinit hlast
    unfold GetOrganizationPackages
    rw [List.map_append]
    rw [fetchPagesLoop_consume_ok initPages hinit ([lastPage].map Except.ok) []]
    simp only [List.map_cons, List.map_nil, fetchPagesLoop, hlast]
    simp [List.flatMap_append]
  · intro okPages e rest hok
    unfold GetOrganizationPackages
    rw [fetchPagesLoop_consume_ok okPages hok (Except.error e :: rest) []]
    rfl

/-- Witness for C4: two full pages then a closing page, and an error on
the second request. -/
theorem c4_pagination_all_or_nothing_witness :
    GetOrganizationPackages (([Page.mk ("c1") true [PackageNode.mk ("i1") ("a") ("npm") ("r") ("u") 1 []]] ++
        [Page.mk ("c2") false [PackageNode.mk ("i2") ("b") ("npm") ("r") ("u") 2 []]]).map Except.ok) =
      some (Except.ok ((([Page.mk ("c1") true [PackageNode.mk ("i1") ("a") ("npm") ("r") ("u") 1 []]] ++
        [Page.mk ("c2") false [PackageNode.mk ("i2") ("b") ("npm") ("r") ("u") 2 []]]).flatMap Page.nodes).map convertNode)) ∧
    GetOrganizationPackages (([Page.mk ("c1") true [PackageNode.mk ("i1") ("a") ("npm") ("r") ("u") 1 []]].map Except.ok) ++
        Except.error ("boom") :: []) =
      some (Except.error ("failed to query packages: " ++ "boom")) :=
  ⟨c4_pagination_all_or_nothing.1
      ([Page.mk ("c1") true [PackageNode.mk ("i1") ("a") ("npm") ("r") ("u") 1 []]])
      (Page.mk ("c2") false [PackageNode.mk ("i2") ("b") ("npm") ("r") ("u") 2 []])
      (by simp) rfl,
   c4_pagination_all_or_nothing.2
      ([Page.mk ("c1") true [PackageNode.mk ("i1") ("a") ("npm") ("r") ("u") 1 []]])
      ("boom") ([]) (by simp)⟩

/-- C5: in every trace of RateLimitAwareGraphQLClient.Query, a probe
reporting no remaining quota is followed immediately by the sleep until
its declared reset time (so the page query cannot precede that wait), a
probe reporting positive quota is followed immediately by the page query
with no sleep, and every page query is immediately preceded by a probe
with positive remaining quota. -/
theorem c5_rate_limit_gating (pageRes : Except String Unit)
    (probes : List (Except String (Int × Int))) :
    (∀ i rem reset,
      (rlQueryLoop pageRes probes).1.get? i = some (QEvent.probe rem reset) →
      (rem ≤ 0 → (rlQueryLoop pageRes probes).1.get? (i + 1) = some (QEvent.sleepUntil reset)) ∧
      (0 < rem → (rlQueryLoop pageRes probes).1.get? (i + 1) = some QEvent.pageQuery)) ∧
    (∀ i, (rlQueryLoop pageRes probes).1.get? i = some QEvent.pageQuery →
      ∃ j rem reset, i = j + 1 ∧
        (rlQueryLoop pageRes probes).1.get? j = some (QEvent.probe rem reset) ∧ 0 < rem) := by
  induction probes with
  | nil =>
    constructor
    · intro i rem reset hi
      simp [rlQueryLoop] at hi
    · intro i hi
      simp [rlQueryLoop] at hi
  | cons probeRes rest ih =>
    cases probeRes with
    | error e =>
      constructor
      · intro i rem reset hi
        simp [rlQueryLoop] at hi
      · intro i hi
        simp [rlQueryLoop] at hi
    | ok pr =>
      obtain ⟨rem0, reset0⟩ := pr
      by_cases hrem : rem0 > 0
      · constructor
        · intro i rem reset hi
          match i with
          | 0 =>
            simp [rlQueryLoop, hrem] at hi
            constructor
            · intro hle
              omega
            · intro _
              simp [rlQueryLoop, hrem]
          | 1 =>
            simp [rlQueryLoop, hrem] at hi
          | (n + 2) =>
            simp [rlQueryLoop, hrem] at hi
        · intro i hi
          match i with
          | 0 =>
            simp [rlQueryLoop, hrem] at hi
          | 1 =>
            exact ⟨0, rem0, reset0, rfl, by simp [rlQueryLoop, hrem], hrem⟩
          | (n + 2) =>
            simp [rlQueryLoop, hrem] at hi
      · constructor
        · intro i rem reset hi
          match i with
          | 0 =>
            simp [rlQueryLoop, hrem] at hi
            obtain ⟨h1, h2⟩ := hi
            subst h1
            subst h2
            constructor
            · intro _
              simp [rlQueryLoop, hrem]
            · intro hpos
              omega
          | 1 =>
            simp [rlQueryLoop, hrem] at hi
          | (n + 2) =>
            simp only [rlQueryLoop, hrem, if_neg, List.get?_cons_succ] at hi ⊢
            exact (ih.1 n rem reset hi)
        · intro i hi
          match i with
          | 0 =>
            simp [rlQueryLoop, hrem] at hi
          | 1 =>
            simp [rlQueryLoop, hrem] at hi
          | (n + 2) =>
            simp only [rlQueryLoop, hrem, if_neg, List.get?_cons_succ] at hi
            obtain ⟨j, rem, reset, hj, hprobe, hpos⟩ := ih.2 n hi
            refine ⟨j + 2, rem, reset, by omega, ?_, hpos⟩
            simp only [rlQueryLoop, hrem, if_neg, List.get?_cons_succ]
            exact hprobe

/-- Witness for C5: quota 0 with reset 5 then quota 1 with reset 9 —
the sleep precedes the page query. -/
theorem c5_rate_limit_gating_witness :
    (rlQueryLoop (Except.ok ()) c5probes).1.get? 1 = some (QEvent.sleepUntil 5) ∧
    (rlQueryLoop (Except.ok ()) c5probes).1.get? 3 = some QEvent.pageQuery :=
  ⟨((c5_rate_limit_gating (Except.ok ()) c5probes).1 0 0 5 rfl).1 (by decide),
   ((c5_rate_limit_gating (Except.ok ()) c5probes).1 2 1 9 rfl).2 (by decide)⟩

/-- One failing step of the retry loop: record the attempt, wait the
linear-backoff delay, and continue with the error remembered. -/
theorem retryLoopGo_step_error (delay : Nat) (res : Nat → Except String Unit)
    (i r : Nat) (last : Option String) (e : String) (h : res i = Except.error e) :
    retryLoopGo delay res i (r + 1) last =
      (RetryEvent.attempt i false :: RetryEvent.wait (delay * (i + 1)) ::
        (retryLoopGo delay res (i + 1) r (some e)).1,
       (retryLoopGo delay res (i + 1) r (some e)).2) := by
  simp [retryLoopGo, h]

/-- When every attempt in the window fails, the retry loop runs the whole
window, produces the linear-backoff failure trace, and surfaces the
final error. -/
theorem retryLoopGo_all_fail (delay : Nat) (res : Nat → Except String Unit)
    (errs : Nat → String) :
    ∀ (r i : Nat) (last : Option String), 0 < r →
      (∀ j, j < r → res (i + j) = Except.error (errs (i + j))) →
      retryLoopGo delay res i r last =
        (failTrace delay i r, Except.error (some (errs (i + r - 1)))) := by
  intro r
  induction r with
  | zero =>
    intro i last h
    omega
  | succ k ih =>
    intro i last _ hfail
    have h0 : res i = Except.error (errs i) := by
      have := hfail 0 (Nat.succ_pos k)
      simpa using this
    cases k with
    | zero =>
      rw [retryLoopGo_step_error delay res i 0 last (errs i) h0]
      simp [retryLoopGo, failTrace]
    | succ k0 =>
      have hrec := ih (i + 1) (some (errs i)) (Nat.succ_pos k0)
        (fun j hj => by
          have := hfail (j + 1) (by omega)
          have harith : i + (j + 1) = i + 1 + j := by omega
          rw [harith] at this
          exact this)
      rw [retryLoopGo_step_error delay res i (k0 + 1) last (errs i) h0, hrec]
      have harith2 : i + 1 + (k0 + 1) - 1 = i + (k0 + 1 + 1) - 1 := by omega
      simp [failTrace, harith2]

/-- Every attempt event in the failure trace is immediately followed by
a wait of delay * (attempt index + 1). -/
theorem failTrace_wait_after_attempt (delay : Nat) :
    ∀ (r i k : Nat) (j : Nat) (b : Bool),
      (failTrace delay i r).get? k = some (RetryEvent.attempt j b) →
      (failTrace delay i r).get? (k + 1) = some (RetryEvent.wait (delay * (j + 1))) := by
  intro r
  induction r with
  | zero =>
    intro i k j b hk
    simp [failTrace] at hk
  | succ r0 ih =>
    intro i k j b hk
    match k with
    | 0 =>
      simp [failTrace] at hk
      obtain ⟨h1, _⟩ := hk
      subst h1
      simp [failTrace]
    | 1 =>
      simp [failTrace] at hk
    | (n + 2) =>
      simp only [failTrace, List.get?_cons_succ] at hk ⊢
      exact ih (i + 1) n j b hk

/-- The failure trace holds exactly one attempt event per configured try. -/
theorem failTrace_countAttempts (delay : Nat) :
    ∀ (r i : Nat), countAttempts (failTrace delay i r) = r := by
  intro r
  induction r with
  | zero =>
    intro i
    rfl
  | succ r0 ih =>
    intro i
    simp only [failTrace, countAttempts, List.filter]
    have := ih (i + 1)
    simp only [countAttempts] at this
    simp [this]

/-- C6: NewUploadManager configures 3 attempts, and an operation failing
on every configured attempt makes exactly maxRetries attempts, each
failure followed by a wait proportional to the attempt number (linear
backoff), and yields the error string carrying the last underlying
error. -/
theorem c6_retry_exhaustion :
    NewUploadManager.maxRetries = 3 ∧
    ∀ (m : UploadManager) (res : Nat → Except String Unit) (errs : Nat → String),
      0 < m.maxRetries →
      (∀ j, j < m.maxRetries → res j = Except.error (errs j)) →
      retryableUpload m res =
        (failTrace m.retryDelaySec 0 m.maxRetries,
         Except.error ("upload failed after " ++ toString m.maxRetries ++
           " attempts: " ++ errs (m.maxRetries - 1))) ∧
      countAttempts (failTrace m.retryDelaySec 0 m.maxRetries) = m.maxRetries ∧
      (∀ k j b, (failTrace m.retryDelaySec 0 m.maxRetries).get? k =
          some (RetryEvent.attempt j b) →
        (failTrace m.retryDelaySec 0 m.maxRetries).get? (k + 1) =
          some (RetryEvent.wait (m.retryDelaySec * (j + 1)))) := by
  refine ⟨rfl, ?_⟩
  intro m res errs hpos hfail
  refine ⟨?_, failTrace_countAttempts m.retryDelaySec m.maxRetries 0,
    fun k j b => failTrace_wait_after_attempt m.retryDelaySec m.maxRetries 0 k j b⟩
  unfold retryableUpload
  rw [retryLoopGo_all_fail m.retryDelaySec res errs m.maxRetries 0 none hpos
    (fun j hj => by simpa using hfail j hj)]
  simp

/-- Witness for C6 at the default manager with a constant failure. -/
theorem c6_retry_exhaustion_witness :
    retryableUpload NewUploadManager (fun _ => Except.error ("boom")) =
      (failTrace NewUploadManager.retryDelaySec 0 NewUploadManager.maxRetries,
       Except.error ("upload failed after " ++ toString NewUploadManager.maxRetries ++
         " attempts: " ++ "boom")) ∧
    countAttempts (failTrace NewUploadManager.retryDelaySec 0 NewUploadManager.maxRetries) =
      NewUploadManager.maxRetries ∧
    (∀ k j b, (failTrace NewUploadManager.retryDelaySec 0 NewUploadManager.maxRetries).get? k =
        some (RetryEvent.attempt j b) →
      (failTrace NewUploadManager.retryDelaySec 0 NewUploadManager.maxRetries).get? (k + 1) =
        some (RetryEvent.wait (NewUploadManager.retryDelaySec * (j + 1)))) :=
  c6_retry_exhaustion.2 NewUploadManager (fun _ => Except.error ("boom"))
    (fun _ => "boom") (by decide) (fun j _ => rfl)

/-- C9: when the existence probe reports the layer digest already present
at the target, uploadContainerLayer uploads no bytes, leaves the registry
unchanged, and still returns the digest; and two container versions
sharing one layer content upload that layer blob exactly once between
them while each version still uploads its manifest. -/
theorem c9_container_layer_dedup :
    (∀ (blobs : List String) (f : MFile), digestOf f.content ∈ blobs →
      uploadContainerLayer blobs f =
        (digestOf f.content, blobs, [LayerEvent.probeExists (digestOf f.content) true])) ∧
    (∀ content : String,
      countBlobUploads (digestOf content)
        ((ContainerUpload [] (containerOpts ("1.0") content)).2.1 ++
         (ContainerUpload (ContainerUpload [] (containerOpts ("1.0") content)).1
            (containerOpts ("2.0") content)).2.1) = 1 ∧
      countManifestUploads
        ((ContainerUpload [] (containerOpts ("1.0") content)).2.1 ++
         (ContainerUpload (ContainerUpload [] (containerOpts ("1.0") content)).1
            (containerOpts ("2.0") content)).2.1) = 2) := by
  constructor
  · intro blobs f h
    simp [uploadContainerLayer, h]
  · intro content
    have hlayer : isContainerLayer (MFile.mk ("layer.tar.gz") content) = true := rfl
    have h1 : uploadContainerLayer [] (MFile.mk ("layer.tar.gz") content) =
        (digestOf content, [digestOf content],
         [LayerEvent.probeExists (digestOf content) false,
          LayerEvent.uploadBlob (digestOf content)]) := by
      simp [uploadContainerLayer]
    have h2 : uploadContainerLayer [digestOf content] (MFile.mk ("layer.tar.gz") content) =
        (digestOf content, [digestOf content],
         [LayerEvent.probeExists (digestOf content) true]) := by
      simp [uploadContainerLayer]
    constructor <;>
      simp [ContainerUpload, containerOpts, validateContainerUpload, List.filter,
        hlayer, uploadLayers, h1, h2, countBlobUploads, countManifestUploads]

/-- Witness for C9 at a registry already holding the digest of content x. -/
theorem c9_container_layer_dedup_witness :
    uploadContainerLayer [digestOf ("x")] (MFile.mk ("a.tar") ("x")) =
      (digestOf ("x"), [digestOf ("x")], [LayerEvent.probeExists (digestOf ("x")) true]) :=
  c9_container_layer_dedup.1 [digestOf ("x")] (MFile.mk ("a.tar") ("x")) (by simp)
